import Mathlib

/-!
# Verification of the Excel analysis core of `muc-off-sharepoint-api`

Shallow embedding of the schema-inference / filter / aggregation core of
`src/main.py` (`_detect_columns`, `_parse_datesafe`, `analyze_excel`).

Modelling conventions:
* a pandas cell is `Cell`: a string, a (rational) number, a date, or a
  missing value (`NaN`/`NaT` are both `Cell.empty`); numbers are `Rat`
  (exact arithmetic stands in for IEEE floats),
* a DataFrame is a `Table`: a header list plus a list of rows, each row a
  list of cells positionally aligned with the headers,
* Python dicts that matter (the rename map, the per-row records produced by
  `to_dict(orient="records")`) are association lists built with
  insert-or-overwrite (`pyInsert`), which preserves first-insertion key
  order exactly as CPython dicts do,
* `pd.to_numeric(errors="coerce")` / `pd.to_datetime(errors="coerce")` are
  per-cell coercions where an unparsable cell becomes `Cell.empty`;
  the numeric-string and date-string grammars are modelled by simple
  executable parsers (sign + digits + optional fraction; strict
  `YYYY-MM-DD`); dates are encoded as the natural `y*10000 + m*100 + d`,
  which is order-preserving, so date comparisons are `Nat` comparisons,
* `astype(str)` is `cellStr`, which renders a missing cell as `"nan"`
  (the CPython `str(float("nan"))`), exactly as pandas does,
* `.str.contains(pat, case=False, na=False)` is modelled as
  case-insensitive substring containment; the source actually treats
  `pat` as a regular expression — for patterns without regex
  metacharacters (all inputs used below) the two coincide.
-/

/-- A spreadsheet cell after `pd.read_excel`: string, number, date, or
missing (`NaN`). -/
inductive Cell where
  | str (s : String)
  | num (q : Rat)
  | date (d : Nat)
  | empty
deriving DecidableEq

/-- A row of a table: cells positionally aligned with the header list. -/
abbrev Row := List Cell

/-- A Python dict with `Cell` values, as an ordered association list. -/
abbrev Record := List (String × Cell)

/-- An in-memory table: `pd.read_excel` output. -/
structure Table where
  headers : List String
  rows : List Row

/-- The query parameters of `analyze_excel` (the same five fields as the
`ExcelQuery` pydantic model). -/
structure ExcelQuery where
  cardcode : Option String
  min_total : Option Rat
  max_total : Option Rat
  start_date : Option String
  end_date : Option String
deriving DecidableEq

/-- The JSON-shaped response of `analyze_excel`. -/
structure AnalyzeResult where
  filtered_by : ExcelQuery
  fields_detected : List String
  supplier_totals : List Record
  sample_records : List Record
  total_records : Nat
deriving DecidableEq

/-! ## String primitives (models of Python `str` methods) -/

/-- Whitespace recognised by `str.strip()` (the forms that occur in
headers). -/
def isWS (c : Char) : Bool := c == ' ' || c == '\t' || c == '\n' || c == '\r'

/-- ASCII lowercasing of one character (model of `str.lower()` per char). -/
def lowerChar (c : Char) : Char :=
  if 65 ≤ c.toNat ∧ c.toNat ≤ 90 then Char.ofNat (c.toNat + 32) else c

/-- `str(c).strip().lower()` — the header normalization applied at line 436
and (idempotently re-applied) at line 315 of `src/main.py`. -/
def normHeader (s : String) : String :=
  String.mk (((s.toList.dropWhile isWS).reverse.dropWhile isWS).reverse.map lowerChar)

/-- Lowercase a whole string. -/
def lowerStr (s : String) : String := String.mk (s.toList.map lowerChar)

/-- `n` is a prefix of `h` (on character lists). -/
def hasPre (n h : List Char) : Bool :=
  match n, h with
  | [], _ => true
  | _ :: _, [] => false
  | a :: as, b :: bs => a == b && hasPre as bs

/-- `n` occurs as a contiguous substring of `h`. -/
def hasSub (n h : List Char) : Bool :=
  match h with
  | [] => n.isEmpty
  | _ :: t => hasPre n h || hasSub n t

/-- Python `n in h` for strings: substring containment. -/
def containsSub (n h : String) : Bool := hasSub n.toList h.toList

/-- Python `s.startswith(p)` for strings. -/
def startsWithStr (p s : String) : Bool := hasPre p.toList s.toList

/-! ## Numeric and date coercion (`pd.to_numeric` / `pd.to_datetime`,
`errors="coerce"`) -/

/-- All characters are ASCII digits. -/
def allDigits (cs : List Char) : Bool := cs.all (fun c => 48 ≤ c.toNat && c.toNat ≤ 57)

/-- Value of an ASCII digit. -/
def digitVal (c : Char) : Nat := c.toNat - 48

/-- Fold a digit list to a natural number. -/
def digitsToNat (cs : List Char) : Nat := cs.foldl (fun a c => 10 * a + digitVal c) 0

/-- Model of Python numeric-string parsing as used by
`pd.to_numeric(errors="coerce")`: optional sign, digits, optional decimal
fraction (exponent and inf/nan spellings are outside the modelled domain). -/
def parseRat (s : String) : Option Rat :=
  let cs := ((s.toList.dropWhile isWS).reverse.dropWhile isWS).reverse
  let signAndRest : Bool × List Char :=
    match cs with
    | '-' :: r => (true, r)
    | '+' :: r => (false, r)
    | _ => (false, cs)
  let neg := signAndRest.1
  let body := signAndRest.2
  let intPart := body.takeWhile (fun c => c != '.')
  let rest := body.dropWhile (fun c => c != '.')
  match rest with
  | [] =>
      if intPart ≠ [] ∧ allDigits intPart then
        let q : Rat := (digitsToNat intPart : Rat)
        some (if neg then -q else q)
      else none
  | _ :: frac =>
      if frac.all (fun c => c != '.') ∧ (intPart ≠ [] ∨ frac ≠ []) ∧
          allDigits intPart ∧ allDigits frac then
        let q : Rat :=
          (digitsToNat intPart : Rat) + (digitsToNat frac : Rat) / ((10 : Rat) ^ frac.length)
        some (if neg then -q else q)
      else none

/-- Gregorian leap year (as `datetime` uses). -/
def leapYear (y : Nat) : Bool := (y % 4 == 0 && y % 100 != 0) || y % 400 == 0

/-- Days in a month, for date validation. -/
def daysInMonth (y m : Nat) : Nat :=
  if m = 2 then (if leapYear y then 29 else 28)
  else if m = 4 ∨ m = 6 ∨ m = 9 ∨ m = 11 then 30 else 31

/-- Parse a strict `YYYY-MM-DD` string to the order-preserving encoding
`y*10000 + m*100 + d`; `none` on anything else.  Models
`datetime.strptime(s, "%Y-%m-%d")` (which validates real calendar dates,
`datetime.MINYEAR = 1`). -/
def parseYMD (s : String) : Option Nat :=
  match s.toList with
  | [y1, y2, y3, y4, s1, m1, m2, s2, d1, d2] =>
      if s1 = '-' ∧ s2 = '-' ∧ allDigits [y1, y2, y3, y4, m1, m2, d1, d2] then
        let y := digitsToNat [y1, y2, y3, y4]
        let m := digitsToNat [m1, m2]
        let d := digitsToNat [d1, d2]
        if 1 ≤ y ∧ 1 ≤ m ∧ m ≤ 12 ∧ 1 ≤ d ∧ d ≤ daysInMonth y m then
          some (y * 10000 + m * 100 + d)
        else none
      else none
  | _ => none

/-- Per-cell `pd.to_numeric(errors="coerce")`: numbers pass through,
numeric strings parse, everything else becomes missing. -/
def toNumeric : Cell → Cell
  | .num q => .num q
  | .str s => match parseRat s with
    | some q => .num q
    | none => .empty
  | _ => .empty

/-- Per-cell `pd.to_datetime(errors="coerce")`: dates pass through, ISO
date strings parse, everything else becomes missing (`NaT`).  The tolerant
multi-format pandas parser is modelled on its ISO core only; none of the
verified properties depends on the breadth of accepted formats. -/
def toDatetime : Cell → Cell
  | .date d => .date d
  | .str s => match parseYMD s with
    | some d => .date d
    | none => .empty
  | _ => .empty

/-! ## `astype(str)` -/

/-- Decimal rendering of a rational (model of Python `str(float)` /
`str(int)`; only its totality matters to the claims). -/
def ratStr (q : Rat) : String :=
  if q.den = 1 then toString q.num ++ ".0" else toString q

/-- Two-digit zero padding. -/
def pad2 (n : Nat) : String := if n < 10 then "0" ++ toString n else toString n

/-- Rendering of an encoded date (model of `str(Timestamp)`). -/
def dateStr (n : Nat) : String :=
  toString (n / 10000) ++ "-" ++ pad2 (n / 100 % 100) ++ "-" ++ pad2 (n % 100) ++ " 00:00:00"

/-- `astype(str)` on one cell.  Crucially, a missing cell (`NaN`) renders
as the string `"nan"`, exactly as `str(float("nan"))` does in pandas. -/
def cellStr : Cell → String
  | .str s => s
  | .num q => ratStr q
  | .date n => dateStr n
  | .empty => "nan"

/-! ## Schema inference (`_detect_columns`, lines 310–377) -/

/-- The inner `find(*keys)` of `_detect_columns`: walk the fragments in
priority order; for each fragment return the first header containing it as
a substring. -/
def findCol (cols : List String) : List String → Option String
  | [] => none
  | k :: ks =>
    match cols.find? (fun c => containsSub k c) with
    | some c => some c
    | none => findCol cols ks

/-- The `u_`-scan of `_detect_columns` (lines 371–374): the loop breaks at
the first header starting with `"u_"` (the `"userfields" not in mapping`
test is always true before the break, so the loop is exactly a first
match). -/
def firstUserField : List String → Option String
  | [] => none
  | c :: cs => if startsWithStr "u_" c then some c else firstUserField cs

/-- The field mapping produced by `_detect_columns`; a `none` entry is a
key absent from the Python dict (removed by the final comprehension). -/
structure ColMap where
  cardcode : Option String
  cardname : Option String
  docnum : Option String
  date : Option String
  total : Option String
  qty : Option String
  item : Option String
  tax : Option String
  discount : Option String
  currency : Option String
  warehouse : Option String
  costcenter : Option String
  cardtype : Option String
  userfields : Option String
deriving DecidableEq

/-- `_detect_columns` on an already-normalized header list (the source
re-applies the same strip/lower normalization at line 315; on the
already-normalized headers passed at line 437 that is the identity). -/
def detect_columns (cols : List String) : ColMap where
  cardcode := findCol cols
    ["cardcode", "vendor", "bpcode", "supplierid", "customer", "clientcode",
     "debitor", "partnercode"]
  cardname := findCol cols
    ["cardname", "vendorname", "bpname", "suppliername", "customername",
     "clientname", "debitorname", "partnername"]
  docnum := findCol cols
    ["docnum", "docentry", "invoice", "invno", "invnum", "documentnumber",
     "po_no", "po number", "doc no", "order", "salesorder", "purchaseorder"]
  date := findCol cols
    ["docdate", "taxdate", "postingdate", "posting", "duedate", "createdate",
     "date", "trandate"]
  total := findCol cols
    ["linetotal", "doctotal", "totalamount", "amount", "grandtotal", "total",
     "netvalue", "grossamount", "debit", "credit", "balance", "priceaftervat",
     "netamt"]
  qty := findCol cols
    ["quantity", "qty", "openqty", "baseqty", "shipqty", "delqty",
     "invoicedqty", "orderedqty"]
  item := findCol cols
    ["itemcode", "item", "dscription", "description", "material", "sku",
     "product", "partnumber", "materialcode"]
  tax := findCol cols ["tax", "vat", "gst", "taxamt", "taxamount"]
  discount := findCol cols ["disc", "discount", "discperc", "discamt", "discountamount"]
  currency := findCol cols ["currency", "curr", "currcode"]
  warehouse := findCol cols ["whscode", "warehouse", "location"]
  costcenter := findCol cols ["costcenter", "profitcenter", "costctr", "pc", "division"]
  cardtype := findCol cols ["cardtype", "bptype", "businesspartner", "bpgroup"]
  userfields := firstUserField cols

/-- `list(colmap.keys())` in the dict's insertion order, restricted to the
fields that resolved. -/
def fieldsDetected (m : ColMap) : List String :=
  ([("cardcode", m.cardcode), ("cardname", m.cardname), ("docnum", m.docnum),
    ("date", m.date), ("total", m.total), ("qty", m.qty), ("item", m.item),
    ("tax", m.tax), ("discount", m.discount), ("currency", m.currency),
    ("warehouse", m.warehouse), ("costcenter", m.costcenter),
    ("cardtype", m.cardtype), ("userfields", m.userfields)]).filterMap
    (fun x => if x.2.isSome then some x.1 else none)

/-! ## Column access and in-place coercion -/

/-- Index of a header label (labels are unique in any table pandas itself
would process without error). -/
def colIdx : List String → String → Nat
  | [], _ => 0
  | c :: cs, h => if c = h then 0 else colIdx cs h + 1

/-- The cell of row `r` in the column labelled `h`. -/
def cellAt (hs : List String) (r : Row) (h : String) : Cell :=
  r.getD (colIdx hs h) Cell.empty

/-- Replace the cell at index `i` by `f` of it. -/
def mapAt (r : Row) (i : Nat) (f : Cell → Cell) : Row :=
  r.set i (f (r.getD i Cell.empty))

/-- The two in-place coercions of lines 440–445: numeric coercion of the
`total` column, then date coercion of the `date` column. -/
def coerceRow (hs : List String) (m : ColMap) (r : Row) : Row :=
  let r1 := match m.total with
    | some tc => mapAt r (colIdx hs tc) toNumeric
    | none => r
  match m.date with
  | some dc => mapAt r1 (colIdx hs dc) toDatetime
  | none => r1

/-! ## Filters (lines 447–461) -/

/-- One row survives the cardcode filter: case-insensitive containment of
the pattern in the `astype(str)` rendering of the mapped cell. -/
def cardcodeMatches (pat : String) (c : Cell) : Bool :=
  containsSub (lowerStr pat) (lowerStr (cellStr c))

/-- Apply an optional row predicate (`df = df[mask]` when a filter is
active, identity otherwise). -/
def condFilter (p : Option (Row → Bool)) (rows : List Row) : List Row :=
  match p with
  | some f => rows.filter f
  | none => rows

/-- The cardcode filter's predicate, active only when the query string is
truthy and the field was detected (`if cardcode and "cardcode" in colmap`). -/
def cardPredOf (hs : List String) (m : ColMap) (c : Option String) : Option (Row → Bool) :=
  match c with
  | none => none
  | some s =>
    match m.cardcode with
    | none => none
    | some cc =>
      if s = "" then none
      else some (fun r => cardcodeMatches s (cellAt hs r cc))

/-- `df[df[total] >= float(min_total)]` — missing amounts compare false. -/
def minPredOf (hs : List String) (m : ColMap) (mn : Option Rat) : Option (Row → Bool) :=
  match mn with
  | none => none
  | some q =>
    match m.total with
    | none => none
    | some tc => some (fun r =>
        match cellAt hs r tc with
        | Cell.num x => decide (q ≤ x)
        | _ => false)

/-- `df[df[total] <= float(max_total)]`. -/
def maxPredOf (hs : List String) (m : ColMap) (mx : Option Rat) : Option (Row → Bool) :=
  match mx with
  | none => none
  | some q =>
    match m.total with
    | none => none
    | some tc => some (fun r =>
        match cellAt hs r tc with
        | Cell.num x => decide (x ≤ q)
        | _ => false)

/-- `df[df[date] >= sd]` — missing dates compare false. -/
def startPredOf (hs : List String) (m : ColMap) (sd : Option Nat) : Option (Row → Bool) :=
  match sd with
  | none => none
  | some b =>
    match m.date with
    | none => none
    | some dc => some (fun r =>
        match cellAt hs r dc with
        | Cell.date d => decide (b ≤ d)
        | _ => false)

/-- `df[df[date] <= ed]`. -/
def endPredOf (hs : List String) (m : ColMap) (ed : Option Nat) : Option (Row → Bool) :=
  match ed with
  | none => none
  | some b =>
    match m.date with
    | none => none
    | some dc => some (fun r =>
        match cellAt hs r dc with
        | Cell.date d => decide (d ≤ b)
        | _ => false)

/-! ## Python dict operations -/

/-- CPython dict assignment `d[k] = v`: overwrite in place if the key
exists (keeping its position), else append. -/
def pyInsert {β : Type} (k : String) (v : β) : List (String × β) → List (String × β)
  | [] => [(k, v)]
  | (k', v') :: d => if k' = k then (k', v) :: d else (k', v') :: pyInsert k v d

/-- CPython dict lookup `d.get(k)`. -/
def pyLookup {β : Type} (k : String) : List (String × β) → Option β
  | [] => none
  | (k', v) :: d => if k' = k then some v else pyLookup k d

/-! ## Aggregation (lines 466–484) -/

/-- Coerced amount of a row with missing-as-zero (the value pandas
`groupby(...).sum()` effectively adds for the row). -/
def totValue (hs : List String) (tot : String) (r : Row) : Rat :=
  match cellAt hs r tot with
  | Cell.num q => q
  | _ => 0

/-- The grouping key of a row: the cardcode cell, extended with the
cardname cell when that field was detected (`group_keys`, lines 468–470;
`dropna=False` keeps missing keys, which `Cell.empty` represents). -/
def groupKey (hs : List String) (m : ColMap) (cc : String) (r : Row) : Cell × Option Cell :=
  (cellAt hs r cc, m.cardname.map (fun cn => cellAt hs r cn))

/-- The distinct group keys of a row set (group order is not modelled: the
source emits groups in pandas' key-sorted order, and the spec leaves the
order contractually undefined). -/
def groupKeysOf (hs : List String) (m : ColMap) (cc : String) (rows : List Row) :
    List (Cell × Option Cell) :=
  (rows.map (groupKey hs m cc)).dedup

/-- The per-group sum of the coerced `total` column (pandas `sum()` skips
`NaN` and yields `0.0` for an all-`NaN` group, i.e. missing-as-zero). -/
def groupSumOf (hs : List String) (m : ColMap) (cc tot : String) (rows : List Row)
    (k : Cell × Option Cell) : Rat :=
  ((rows.filter (fun r => decide (groupKey hs m cc r = k))).map (totValue hs tot)).sum

/-- The `renames` dict literal of lines 479–483.  Note that when
`cardname` is NOT in the mapping, `colmap.get("cardname", colmap["cardcode"])`
falls back to the cardcode column, so the literal writes the SAME key
twice and the later value wins: the cardcode column is renamed to
`"CardName"`, and nothing is renamed to `"CardCode"`. -/
def renMap (m : ColMap) (cc tot : String) : List (String × String) :=
  pyInsert tot "TotalAmount"
    (pyInsert (m.cardname.getD cc) "CardName"
      (pyInsert cc "CardCode" []))

/-- `grouped.rename(columns=renames)`: a label maps through the rename
dict, defaulting to itself. -/
def renameLabel (ren : List (String × String)) (l : String) : String :=
  (pyLookup l ren).getD l

/-- One row of `grouped.rename(columns=renames).to_dict(orient="records")`:
the grouped row's labelled cells (`group_keys ++ [total]`), each label
renamed, inserted into a fresh dict in column order. -/
def aggRecord (m : ColMap) (cc tot : String) (k : Cell × Option Cell) (s : Rat) : Record :=
  let ren := renMap m cc tot
  let pairs : List (String × Cell) :=
    match m.cardname, k.2 with
    | some cn, some kv => [(cc, k.1), (cn, kv), (tot, Cell.num s)]
    | _, _ => [(cc, k.1), (tot, Cell.num s)]
  pairs.foldl (fun d q => pyInsert (renameLabel ren q.1) q.2 d) []

/-- `supplier_totals` (lines 466–484): present only when both cardcode and
total were detected and at least one row survived filtering. -/
def supplierTotals (hs : List String) (m : ColMap) (rows : List Row) : List Record :=
  match m.cardcode with
  | none => []
  | some cc =>
    match m.total with
    | none => []
    | some tot =>
      if 0 < rows.length then
        (groupKeysOf hs m cc rows).map
          (fun k => aggRecord m cc tot k (groupSumOf hs m cc tot rows k))
      else []

/-- The `TotalAmount` value of an aggregate record, as a rational
(missing or non-numeric reads as 0; by construction it is always present). -/
def amountOf (e : Record) : Rat :=
  match pyLookup "TotalAmount" e with
  | some (Cell.num q) => q
  | _ => 0

/-! ## Preview (lines 486–488) -/

/-- `preview_cols`: the mapped columns of the five preview fields, in the
source's fixed order, absent fields skipped. -/
def previewColsOf (m : ColMap) : List String :=
  ([m.cardcode, m.cardname, m.docnum, m.total, m.date]).filterMap id

/-- One preview record: the row projected onto `previewCols`
(`df[preview_cols].to_dict(orient="records")` row). -/
def projRow (hs : List String) (cols : List String) (r : Row) : Record :=
  cols.foldl (fun d c => pyInsert c (cellAt hs r c) d) []

/-- `sample_records`: the first 10 filtered rows projected onto the
preview columns; the empty list when no preview field was detected. -/
def sampleRecords (hs : List String) (m : ColMap) (rows : List Row) : List Record :=
  let pc := previewColsOf m
  if pc.isEmpty then [] else (rows.take 10).map (projRow hs pc)

/-! ## The endpoint pipeline (`analyze_excel`, lines 385–502) -/

/-- `_parse_datesafe` (lines 380–383): `None`/empty pass through as no
bound; a non-`YYYY-MM-DD` string raises `ValueError` (modelled as
`Except.error`), which the endpoint does NOT catch. -/
def parse_datesafe (s : Option String) : Except String (Option Nat) :=
  match s with
  | none => .ok none
  | some v =>
    if v = "" then .ok none
    else
      match parseYMD v with
      | some d => .ok (some d)
      | none => .error "ValueError"

/-- Normalized headers of a table (line 436). -/
def normHeadersOf (t : Table) : List String := t.headers.map normHeader

/-- The inferred field mapping of a table (line 437). -/
def colmapOf (t : Table) : ColMap := detect_columns (normHeadersOf t)

/-- The rows after the two column coercions (lines 440–445). -/
def coercedRowsOf (t : Table) : List Row :=
  t.rows.map (coerceRow (normHeadersOf t) (colmapOf t))

/-- The rows surviving all five optional filters, in the source's fixed
order (cardcode, min, max, start, end), given the parsed date bounds. -/
def filteredRows (t : Table) (p : ExcelQuery) (sd ed : Option Nat) : List Row :=
  condFilter (endPredOf (normHeadersOf t) (colmapOf t) ed)
    (condFilter (startPredOf (normHeadersOf t) (colmapOf t) sd)
      (condFilter (maxPredOf (normHeadersOf t) (colmapOf t) p.max_total)
        (condFilter (minPredOf (normHeadersOf t) (colmapOf t) p.min_total)
          (condFilter (cardPredOf (normHeadersOf t) (colmapOf t) p.cardcode)
            (coercedRowsOf t)))))

/-- The `df.empty` early return (lines 420–433). -/
def emptyResult (p : ExcelQuery) : AnalyzeResult :=
  { filtered_by := p
    fields_detected := []
    supplier_totals := []
    sample_records := []
    total_records := 0 }

/-- The response assembled on the main path (lines 490–502). -/
def buildResult (t : Table) (p : ExcelQuery) (sd ed : Option Nat) : AnalyzeResult :=
  { filtered_by := p
    fields_detected := fieldsDetected (colmapOf t)
    supplier_totals := supplierTotals (normHeadersOf t) (colmapOf t) (filteredRows t p sd ed)
    sample_records := sampleRecords (normHeadersOf t) (colmapOf t) (filteredRows t p sd ed)
    total_records := (filteredRows t p sd ed).length }

/-- The core of `analyze_excel`: the `df.empty` early return, then date
parsing (whose `ValueError` escapes uncaught) and the full pipeline.
`df.empty` is true when either axis has length 0. -/
def analyze_excel (t : Table) (p : ExcelQuery) : Except String AnalyzeResult :=
  if t.rows.isEmpty || t.headers.isEmpty then .ok (emptyResult p)
  else
    match parse_datesafe p.start_date, parse_datesafe p.end_date with
    | .ok sd, .ok ed => .ok (buildResult t p sd ed)
    | .error e, _ => .error e
    | .ok _, .error e => .error e

/-- `p'` is `p` with exactly one previously-absent bound supplied. -/
def oneMoreBound (p p' : ExcelQuery) : Prop :=
  (∃ v, p.cardcode = none ∧ p' = { p with cardcode := some v }) ∨
  (∃ v, p.min_total = none ∧ p' = { p with min_total := some v }) ∨
  (∃ v, p.max_total = none ∧ p' = { p with max_total := some v }) ∨
  (∃ v, p.start_date = none ∧ p' = { p with start_date := some v }) ∨
  (∃ v, p.end_date = none ∧ p' = { p with end_date := some v })

/-- Concrete two-supplier table used to witness the amended aggregation
claim. -/
def w1Table : Table :=
  ⟨["cardcode", "cardname", "doctotal"],
    [[Cell.str "A1", Cell.str "Acme", Cell.num 100],
     [Cell.str "B2", Cell.str "Globex", Cell.num 200]]⟩

/-- Empty criteria used with `w1Table`. -/
def w1Query : ExcelQuery := ⟨none, none, none, none, none⟩

/-- The grouping key of `w1Table`'s first supplier. -/
def w1Key : Cell × Option Cell := (Cell.str "A1", some (Cell.str "Acme"))

/-- The aggregate entry of `w1Table`'s first supplier. -/
def w1Entry : Record :=
  aggRecord (colmapOf w1Table) "cardcode" "doctotal" w1Key
    (groupSumOf (normHeadersOf w1Table) (colmapOf w1Table) "cardcode" "doctotal"
      (filteredRows w1Table w1Query none none) w1Key)

/-! ## Helper lemmas -/

/-- Inversion of `analyze_excel` success: either the `df.empty` early
return fired, or the dates parsed and the full pipeline ran. -/
lemma analyze_ok_cases {t : Table} {p : ExcelQuery} {r : AnalyzeResult}
    (h : analyze_excel t p = .ok r) :
    ((t.rows.isEmpty || t.headers.isEmpty) = true ∧ r = emptyResult p) ∨
    ((t.rows.isEmpty || t.headers.isEmpty) = false ∧ ∃ sd ed,
      parse_datesafe p.start_date = .ok sd ∧ parse_datesafe p.end_date = .ok ed ∧
      r = buildResult t p sd ed) := by
  unfold analyze_excel at h
  split at h
  · left
    simp only [Except.ok.injEq] at h
    exact ⟨by assumption, h.symm⟩
  · right
    refine ⟨Bool.eq_false_iff.mpr (by assumption), ?_⟩
    split at h
    · next sd ed hsd hed =>
        simp only [Except.ok.injEq] at h
        exact ⟨sd, ed, hsd, hed, h.symm⟩
    · exact absurd h (by simp)
    · exact absurd h (by simp)

lemma hasPre_refl (l : List Char) : hasPre l l = true := by
  induction l with
  | nil => rfl
  | cons a t ih => simp [hasPre, ih]

lemma containsSub_self (k : String) : containsSub k k = true := by
  unfold containsSub
  cases h : k.toList with
  | nil => rfl
  | cons a t => simp [hasSub, ← h, hasPre_refl]

lemma find?_append_first {p : String → Bool} (u w : List String) (c : String)
    (hu : ∀ x ∈ u, p x = false) (hc : p c = true) :
    (u ++ c :: w).find? p = some c := by
  induction u with
  | nil => simpa [List.find?_cons] using List.find?_cons_of_pos w hc
  | cons a u ih =>
      have ha : p a = false := hu a (by simp)
      rw [List.cons_append, List.find?_cons_of_neg _ (by simp [ha])]
      exact ih (fun x hx => hu x (by simp [hx]))

lemma find?_none_of_all {p : String → Bool} (cols : List String)
    (h : ∀ x ∈ cols, p x = false) : cols.find? p = none :=
  List.find?_eq_none.mpr (fun x hx => by simp [h x hx])

/-- C5: schema inference is first-fragment-wins, then first-header-wins.
Part 1: if no fragment before `k` matches any header, and `c` is the first
header (in column order) containing `k`, then the field resolves to `c`;
in particular a header literally equal to a first-priority synonym is
never passed over in favour of a header matching only a later-priority
fragment.  Part 2: whenever some header literally equals the first
fragment, the walk succeeds and the selected header contains that first
fragment (so the selection never falls through to a later synonym). -/
theorem c5_fragment_priority :
    (∀ (ks1 : List String) (k : String) (ks2 u w : List String) (c : String),
        (∀ k' ∈ ks1, ∀ x ∈ u ++ c :: w, containsSub k' x = false) →
        (∀ x ∈ u, containsSub k x = false) →
        containsSub k c = true →
        findCol (u ++ c :: w) (ks1 ++ k :: ks2) = some c) ∧
    (∀ (k : String) (ks cols : List String), k ∈ cols →
        ∃ c, findCol cols (k :: ks) = some c ∧ containsSub k c = true) := by
  constructor
  · intro ks1
    induction ks1 with
    | nil =>
        intro k ks2 u w c _ hu hc
        have hf := find?_append_first (p := fun x => containsSub k x) u w c hu hc
        simp only [List.nil_append, findCol]
        rw [hf]
    | cons k' t ih =>
        intro k ks2 u w c h1 hu hc
        have hnone := find?_none_of_all (p := fun x => containsSub k' x) (u ++ c :: w)
          (fun x hx => h1 k' (by simp) x hx)
        simp only [List.cons_append, findCol]
        rw [hnone]
        exact ih k ks2 u w c (fun q hq x hx => h1 q (by simp [hq]) x hx) hu hc
  · intro k ks cols hk
    have hs : (cols.find? (fun c => containsSub k c)).isSome :=
      List.find?_isSome.mpr ⟨k, hk, by simp [containsSub_self]⟩
    obtain ⟨c, hc⟩ := Option.isSome_iff_exists.mp hs
    refine ⟨c, ?_, ?_⟩
    · simp only [findCol]
      rw [hc]
    · simpa using List.find?_some hc

/-- Witness for C5: with headers `["vendorcol", "cardcode"]` — the first
matching only the later-priority fragment `"vendor"`, the second literally
equal to the first-priority fragment `"cardcode"` — the cardcode synonym
walk selects the literal `"cardcode"` header. -/
theorem c5_fragment_priority_witness :
    findCol ["vendorcol", "cardcode"]
      ["cardcode", "vendor", "bpcode", "supplierid", "customer", "clientcode",
       "debitor", "partnercode"] = some "cardcode" := by
  have h := c5_fragment_priority.1 [] "cardcode"
    ["vendor", "bpcode", "supplierid", "customer", "clientcode", "debitor", "partnercode"]
    ["vendorcol"] [] "cardcode"
    (by intro k' hk'; cases hk') (by decide) (by decide)
  simpa using h

/-- C7: the `custom_fields` mapping is exactly the first header (in column
order) starting with the literal `"u_"`; it is a single optional slot, so
it is assigned at most once even when several headers start with `"u_"`,
and the characterization makes no reference to the synonym walk. -/
theorem c7_userfields_first (cols : List String) (c : String) :
    (detect_columns cols).userfields = some c ↔
      ∃ u w, cols = u ++ c :: w ∧ startsWithStr "u_" c = true ∧
        ∀ x ∈ u, startsWithStr "u_" x = false := by
  show firstUserField cols = some c ↔ _
  induction cols with
  | nil =>
      simp only [firstUserField]
      constructor
      · intro h; cases h
      · rintro ⟨u, w, h, -, -⟩
        exact absurd h.symm (List.append_ne_nil_of_right_ne_nil u (by simp))
  | cons a t ih =>
      by_cases ha : startsWithStr "u_" a = true
      · simp only [firstUserField, if_pos ha]
        constructor
        · intro h
          injection h with h
          exact ⟨[], t, by rw [h, List.nil_append], by rw [← h]; exact ha, by simp⟩
        · rintro ⟨u, w, hcols, hc, hu⟩
          cases u with
          | nil =>
              simp only [List.nil_append, List.cons.injEq] at hcols
              rw [hcols.1]
          | cons b u' =>
              simp only [List.cons_append, List.cons.injEq] at hcols
              have hb : startsWithStr "u_" b = false := hu b (by simp)
              rw [hcols.1] at ha
              rw [hb] at ha
              cases ha
      · simp only [firstUserField, if_neg ha]
        rw [ih]
        have ha' : startsWithStr "u_" a = false := by
          cases h : startsWithStr "u_" a with
          | true => exact absurd h ha
          | false => rfl
        constructor
        · rintro ⟨u, w, h1, h2, h3⟩
          refine ⟨a :: u, w, by rw [h1, List.cons_append], h2, ?_⟩
          intro x hx
          rcases List.mem_cons.mp hx with rfl | hx'
          · exact ha'
          · exact h3 x hx'
        · rintro ⟨u, w, h1, h2, h3⟩
          cases u with
          | nil =>
              simp only [List.nil_append, List.cons.injEq] at h1
              rw [h1.1] at ha'
              rw [ha'] at h2
              cases h2
          | cons b u' =>
              simp only [List.cons_append, List.cons.injEq] at h1
              exact ⟨u', w, h1.2, h2, fun x hx => h3 x (by simp [hx])⟩

/-- Witness for C7, on the spec's own scenario (plus a later `"u_"`
header): `custom_fields` maps to `"u_region"`, the first `"u_"`-headed
column, even though `"u_late"` also starts with `"u_"`. -/
theorem c7_userfields_first_witness :
    (detect_columns ["vendor code", "u_region", "amount", "u_late"]).userfields
      = some "u_region" :=
  (c7_userfields_first ["vendor code", "u_region", "amount", "u_late"] "u_region").mpr
    ⟨["vendor code"], ["amount", "u_late"], rfl, by decide, by decide⟩

/-- C6: a table with zero rows, whatever its headers and whatever the
filter criteria, produces a successful result with `total_records = 0`,
`fields_detected = []`, `supplier_totals = []`, `sample_records = []`
(the `df.empty` early return fires before inference, coercion, filtering,
and date parsing). -/
theorem c6_empty_table (t : Table) (p : ExcelQuery) (h : t.rows = []) :
    ∃ r, analyze_excel t p = .ok r ∧ r.total_records = 0 ∧
      r.fields_detected = [] ∧ r.supplier_totals = [] ∧ r.sample_records = [] := by
  refine ⟨emptyResult p, ?_, rfl, rfl, rfl, rfl⟩
  unfold analyze_excel
  rw [h]
  rfl

/-- Witness for C6: a concrete zero-row table with headers and criteria
supplied (including a malformed date string, which the early return makes
irrelevant). -/
theorem c6_empty_table_witness :
    ∃ r, analyze_excel ⟨["cardcode", "doctotal"], []⟩
        ⟨some "A", none, none, some "not-a-date", none⟩ = .ok r ∧
      r.total_records = 0 ∧ r.fields_detected = [] ∧ r.supplier_totals = [] ∧
      r.sample_records = [] :=
  c6_empty_table ⟨["cardcode", "doctotal"], []⟩
    ⟨some "A", none, none, some "not-a-date", none⟩ rfl

/-- C10: every successful response echoes all five filter criteria exactly
as supplied (the `filtered_by` object is built from the raw query
parameters on both the empty-table path and the main path, with no record
of which filters were actually applied). -/
theorem c10_filtered_by_echo (t : Table) (p : ExcelQuery) (r : AnalyzeResult)
    (h : analyze_excel t p = .ok r) : r.filtered_by = p := by
  rcases analyze_ok_cases h with ⟨-, rfl⟩ | ⟨-, sd, ed, -, -, rfl⟩ <;> rfl

/-- Witness for C10: a table detecting none of the filterable fields, with
a cardcode filter and a minimum supplied; both criteria are silently
skipped yet echoed verbatim. -/
theorem c10_filtered_by_echo_witness :
    (buildResult ⟨["foo"], [[Cell.str "x"]]⟩
        ⟨some "ZZZ", some 3, none, none, none⟩ none none).filtered_by
      = ⟨some "ZZZ", some 3, none, none, none⟩ :=
  c10_filtered_by_echo ⟨["foo"], [[Cell.str "x"]]⟩
    ⟨some "ZZZ", some 3, none, none, none⟩ _ rfl

/-- C2 (evaluation of the code's actual behaviour): one row whose
partner-code cell is missing, cardcode filter `"a"`.  `astype(str)` turns
the missing cell into the string `"nan"`, which contains `"a"`, so the row
SURVIVES the filter (`total_records = 1`), although the claim (and the
dead `na=False` argument in the source) says a missing cell never
matches. -/
theorem c2_missing_cell_matches :
    (analyze_excel ⟨["vendor"], [[Cell.empty]]⟩
        ⟨some "a", none, none, none, none⟩).toOption.map
      (fun r => r.total_records) = some 1 := rfl

/-- C3 (evaluation of the code's actual behaviour): the contradictory
range `min_total = 2, max_total = 1` is not rejected — the full pipeline
runs and returns a normal result (here with `total_records = 0`); and a
malformed `start_date` is not rejected up front either: it surfaces as an
uncaught `ValueError` raised from inside the pipeline (after loading,
inference, coercion and the cardcode/amount filters have already run). -/
theorem c3_no_boundary_rejection :
    (analyze_excel ⟨["vendor", "amount"], [[Cell.str "V1", Cell.num 10]]⟩
        ⟨none, some 2, some 1, none, none⟩).toOption.map
      (fun r => r.total_records) = some 0 ∧
    analyze_excel ⟨["vendor", "amount"], [[Cell.str "V1", Cell.num 10]]⟩
        ⟨none, none, none, some "2024-99-99", none⟩ = .error "ValueError" :=
  ⟨rfl, rfl⟩

/-- C1 counterexample: headers `["vendor", "amount"]` detect partner_code
and total_amount but not partner_name; the rename dict then maps the
vendor column to `"CardName"` (the duplicate-key fallback in the dict
literal), so the single aggregate entry has NO `"CardCode"` key — its
partner-code value sits under `"CardName"`. -/
theorem c1_counterexample :
    (analyze_excel ⟨["vendor", "amount"], [[Cell.str "V1", Cell.num 10]]⟩
        ⟨none, none, none, none, none⟩).toOption.map
      (fun r => r.supplier_totals.map
        (fun e => (pyLookup "CardCode" e, pyLookup "CardName" e,
                   (pyLookup "TotalAmount" e).isSome)))
      = some [(none, some (Cell.str "V1"), true)] := rfl

/-- C9 counterexample: a non-empty table (headers `["foo"]`, one row) in
which none of the five preview fields is detected; one row survives
filtering (`total_records = 1`) yet `sample_records = []` — not the first
filtered row, contradicting the claim as stated. -/
theorem c9_counterexample :
    (analyze_excel ⟨["foo"], [[Cell.str "x"]]⟩
        ⟨none, none, none, none, none⟩).toOption.map
      (fun r => (r.total_records, r.sample_records)) = some (1, []) := rfl

lemma pyLookup_pyInsert_self {β : Type} (k : String) (v : β) (d : List (String × β)) :
    pyLookup k (pyInsert k v d) = some v := by
  induction d with
  | nil => simp [pyInsert, pyLookup]
  | cons a d ih =>
      obtain ⟨k', v'⟩ := a
      by_cases h : k' = k
      · simp [pyInsert, pyLookup, h]
      · simp [pyInsert, pyLookup, h, ih]

lemma renameLabel_last (k v : String) (d : List (String × String)) :
    renameLabel (pyInsert k v d) k = v := by
  unfold renameLabel
  rw [pyLookup_pyInsert_self]
  rfl

lemma sum_map_zero {κ : Type} (ks : List κ) : (ks.map (fun _ => (0 : Rat))).sum = 0 := by
  induction ks with
  | nil => rfl
  | cons a t ih => simp [ih]

lemma sum_map_add {κ : Type} (ks : List κ) (f g : κ → Rat) :
    (ks.map (fun k => f k + g k)).sum = (ks.map f).sum + (ks.map g).sum := by
  induction ks with
  | nil => simp
  | cons a t ih => simp [ih]; ring

lemma sum_ite_notmem {κ : Type} [DecidableEq κ] {c : κ} {ks : List κ} (h : c ∉ ks) (w : Rat) :
    (ks.map (fun k => if c = k then w else 0)).sum = 0 := by
  induction ks with
  | nil => rfl
  | cons a t ih =>
      have hca : c ≠ a := fun hca => h (by simp [hca])
      simp [hca, ih (fun hc => h (by simp [hc]))]

lemma sum_ite_single {κ : Type} [DecidableEq κ] {c : κ} {ks : List κ}
    (hnd : ks.Nodup) (hc : c ∈ ks) (w : Rat) :
    (ks.map (fun k => if c = k then w else 0)).sum = w := by
  induction ks with
  | nil => cases hc
  | cons a t ih =>
      rcases List.mem_cons.mp hc with rfl | hct
      · have : c ∉ t := (List.nodup_cons.mp hnd).1
        simp [sum_ite_notmem this w]
      · have hca : c ≠ a := fun hca => (List.nodup_cons.mp hnd).1 (hca ▸ hct)
        simp [hca, ih (List.nodup_cons.mp hnd).2 hct]

/-- Fiberwise summation: summing the per-group sums over any duplicate-free
key list covering all rows gives the total sum. -/
lemma sum_fiber {α κ : Type} [DecidableEq κ] (l : List α) (ks : List κ)
    (f : α → κ) (v : α → Rat) (hnd : ks.Nodup) (hcov : ∀ a ∈ l, f a ∈ ks) :
    (ks.map (fun k => ((l.filter (fun a => decide (f a = k))).map v).sum)).sum
      = (l.map v).sum := by
  induction l with
  | nil => simp [sum_map_zero ks]
  | cons a tl ih =>
      have key : (fun k => (((a :: tl).filter (fun x => decide (f x = k))).map v).sum)
          = fun k => (if f a = k then v a else 0)
              + ((tl.filter (fun x => decide (f x = k))).map v).sum := by
        funext k
        by_cases h : f a = k
        · simp [List.filter_cons, h]
        · simp [List.filter_cons, h]
      rw [key, sum_map_add,
          sum_ite_single hnd (hcov a (by simp)) (v a),
          ih (fun x hx => hcov x (by simp [hx]))]
      simp

lemma aggRecord_lookup_total (m : ColMap) (cc tot : String) (k : Cell × Option Cell)
    (s : Rat) : pyLookup "TotalAmount" (aggRecord m cc tot k s) = some (Cell.num s) := by
  unfold aggRecord
  rcases hcn : m.cardname with - | cn
  · cases hk : k.2 <;>
      · simp only [List.foldl]
        rw [renMap, renameLabel_last, pyLookup_pyInsert_self]
  · cases hk : k.2 with
    | none =>
        simp only [List.foldl]
        rw [renMap, renameLabel_last, pyLookup_pyInsert_self]
    | some kv =>
        simp only [List.foldl]
        rw [renMap, renameLabel_last, pyLookup_pyInsert_self]

lemma supplierTotals_eq (hs : List String) (m : ColMap) (rows : List Row)
    (cc tot : String) (hcc : m.cardcode = some cc) (htot : m.total = some tot)
    (hpos : 0 < rows.length) :
    supplierTotals hs m rows
      = (groupKeysOf hs m cc rows).map
          (fun k => aggRecord m cc tot k (groupSumOf hs m cc tot rows k)) := by
  unfold supplierTotals
  rw [hcc, htot]
  exact if_pos hpos

/-- C4: for every table in which both partner_code and total_amount are
detected and at least one row survives filtering, the sum of the
`TotalAmount` values over all `supplier_totals` entries equals the sum of
the coerced total_amount column over the filtered rows, missing amounts
counting as 0.  (Exact rational arithmetic stands in for the source's
floating point.) -/
theorem c4_sum_invariant (t : Table) (p : ExcelQuery) (r : AnalyzeResult)
    (cc tot : String) (sd ed : Option Nat)
    (hok : analyze_excel t p = .ok r)
    (hsd : parse_datesafe p.start_date = .ok sd)
    (hed : parse_datesafe p.end_date = .ok ed)
    (hcc : (colmapOf t).cardcode = some cc)
    (htot : (colmapOf t).total = some tot)
    (hpos : 0 < r.total_records) :
    (r.supplier_totals.map amountOf).sum
      = ((filteredRows t p sd ed).map (totValue (normHeadersOf t) tot)).sum := by
  rcases analyze_ok_cases hok with ⟨hc, rfl⟩ | ⟨hc, sd0, ed0, hsd0, hed0, rfl⟩
  · exact absurd hpos (by simp [emptyResult])
  · rw [hsd] at hsd0
    injection hsd0 with hsd0
    rw [hed] at hed0
    injection hed0 with hed0
    subst hsd0
    subst hed0
    have hlen : 0 < (filteredRows t p sd ed).length := by
      simpa [buildResult] using hpos
    have hst := supplierTotals_eq (normHeadersOf t) (colmapOf t) (filteredRows t p sd ed)
      cc tot hcc htot hlen
    show ((buildResult t p sd ed).supplier_totals.map amountOf).sum = _
    rw [show (buildResult t p sd ed).supplier_totals
          = supplierTotals (normHeadersOf t) (colmapOf t) (filteredRows t p sd ed) from rfl,
        hst, List.map_map]
    have hcomp : (amountOf ∘ fun k =>
        aggRecord (colmapOf t) cc tot k
          (groupSumOf (normHeadersOf t) (colmapOf t) cc tot (filteredRows t p sd ed) k))
        = fun k => groupSumOf (normHeadersOf t) (colmapOf t) cc tot (filteredRows t p sd ed) k := by
      funext k
      show amountOf (aggRecord _ _ _ _ _) = _
      rw [show amountOf (aggRecord (colmapOf t) cc tot k
            (groupSumOf (normHeadersOf t) (colmapOf t) cc tot (filteredRows t p sd ed) k))
          = _ from rfl]
      unfold amountOf
      rw [aggRecord_lookup_total]
    rw [hcomp]
    exact sum_fiber (filteredRows t p sd ed) _ _ _
      (List.nodup_dedup _)
      (fun a ha => List.mem_dedup.mpr (List.mem_map_of_mem _ ha))

/-- Witness for C4: three rows, two suppliers, no filters; the grouped
`TotalAmount` sums add up to the filtered column total. -/
theorem c4_sum_invariant_witness :
    (((buildResult ⟨["vendor", "amount"],
        [[Cell.str "A", Cell.num 7], [Cell.str "B", Cell.num 5], [Cell.str "A", Cell.num 1]]⟩
        ⟨none, none, none, none, none⟩ none none).supplier_totals).map amountOf).sum
      = ((filteredRows ⟨["vendor", "amount"],
          [[Cell.str "A", Cell.num 7], [Cell.str "B", Cell.num 5], [Cell.str "A", Cell.num 1]]⟩
          ⟨none, none, none, none, none⟩ none none).map
          (totValue (normHeadersOf ⟨["vendor", "amount"],
            [[Cell.str "A", Cell.num 7], [Cell.str "B", Cell.num 5], [Cell.str "A", Cell.num 1]]⟩)
            "amount")).sum :=
  c4_sum_invariant
    ⟨["vendor", "amount"],
      [[Cell.str "A", Cell.num 7], [Cell.str "B", Cell.num 5], [Cell.str "A", Cell.num 1]]⟩
    ⟨none, none, none, none, none⟩ _ "vendor" "amount" none none
    rfl rfl rfl rfl rfl (by decide)

lemma aggRecord_lookups_none (m : ColMap) (cc tot : String) (hcn : m.cardname = none)
    (hcctot : cc ≠ tot) (k : Cell × Option Cell) (s : Rat) :
    pyLookup "CardCode" (aggRecord m cc tot k s) = none ∧
    pyLookup "CardName" (aggRecord m cc tot k s) = some k.1 := by
  unfold aggRecord renMap
  rw [hcn]
  constructor <;>
    simp [pyInsert, pyLookup, renameLabel, hcctot]

lemma aggRecord_lookups_some (m : ColMap) (cc tot cn : String) (hcn : m.cardname = some cn)
    (h1 : cn ≠ cc) (h2 : cn ≠ tot) (hcctot : cc ≠ tot) (k : Cell × Option Cell)
    (kv : Cell) (hk2 : k.2 = some kv) (s : Rat) :
    pyLookup "CardCode" (aggRecord m cc tot k s) = some k.1 ∧
    pyLookup "CardName" (aggRecord m cc tot k s) = some kv := by
  unfold aggRecord renMap
  rw [hcn, hk2]
  constructor <;>
    simp [pyInsert, pyLookup, renameLabel, hcctot, h1, h2, Ne.symm h1, Ne.symm h2]

/-- C1 (amended): with partner_code and total_amount detected (on distinct
columns, distinct also from partner_name's column when that is detected)
and at least one surviving row, every supplier_totals entry carries the
canonical `TotalAmount` key with its group's sum; when partner_name is
detected the entry carries `CardCode` (the group's partner-code value) and
`CardName` (the group's partner-name value); when partner_name is NOT
detected, the duplicate-key fallback of the rename dict leaves the entry
with NO `CardCode` key and puts the group's partner-code value under
`CardName`.  The distinctness hypotheses exclude inputs on which the
source itself raises (`reset_index` on duplicate labels). -/
theorem c1_amended_thm (t : Table) (p : ExcelQuery) (r : AnalyzeResult)
    (cc tot : String) (sd ed : Option Nat)
    (hok : analyze_excel t p = .ok r)
    (hsd : parse_datesafe p.start_date = .ok sd)
    (hed : parse_datesafe p.end_date = .ok ed)
    (hcc : (colmapOf t).cardcode = some cc)
    (htot : (colmapOf t).total = some tot)
    (hcctot : cc ≠ tot)
    (hcn : ∀ cn, (colmapOf t).cardname = some cn → cn ≠ cc ∧ cn ≠ tot)
    (hpos : 0 < r.total_records) :
    ∀ e ∈ r.supplier_totals, ∃ k,
      k ∈ groupKeysOf (normHeadersOf t) (colmapOf t) cc (filteredRows t p sd ed) ∧
      pyLookup "TotalAmount" e
        = some (Cell.num (groupSumOf (normHeadersOf t) (colmapOf t) cc tot
            (filteredRows t p sd ed) k)) ∧
      ((colmapOf t).cardname = none →
        pyLookup "CardCode" e = none ∧ pyLookup "CardName" e = some k.1) ∧
      (∀ cn, (colmapOf t).cardname = some cn →
        pyLookup "CardCode" e = some k.1 ∧ pyLookup "CardName" e = k.2) := by
  rcases analyze_ok_cases hok with ⟨hc, rfl⟩ | ⟨hc, sd0, ed0, hsd0, hed0, rfl⟩
  · exact absurd hpos (by simp [emptyResult])
  · rw [hsd] at hsd0
    injection hsd0 with hsd0
    rw [hed] at hed0
    injection hed0 with hed0
    subst hsd0
    subst hed0
    have hlen : 0 < (filteredRows t p sd ed).length := by
      simpa [buildResult] using hpos
    intro e he
    rw [show (buildResult t p sd ed).supplier_totals
          = supplierTotals (normHeadersOf t) (colmapOf t) (filteredRows t p sd ed) from rfl,
        supplierTotals_eq (normHeadersOf t) (colmapOf t) (filteredRows t p sd ed)
          cc tot hcc htot hlen] at he
    obtain ⟨k, hk, rfl⟩ := List.mem_map.mp he
    refine ⟨k, hk, aggRecord_lookup_total _ _ _ _ _, ?_, ?_⟩
    · intro hnone
      exact aggRecord_lookups_none (colmapOf t) cc tot hnone hcctot k _
    · intro cn hsome
      obtain ⟨r0, _, hr0⟩ := List.mem_map.mp (List.mem_dedup.mp hk)
      have hk2 : k.2 = some (cellAt (normHeadersOf t) r0 cn) := by
        rw [← hr0]
        show ((colmapOf t).cardname.map
          (fun c => cellAt (normHeadersOf t) r0 c)) = _
        rw [hsome]
        rfl
      have := aggRecord_lookups_some (colmapOf t) cc tot cn hsome
        (hcn cn hsome).1 (hcn cn hsome).2 hcctot k _ hk2
        (groupSumOf (normHeadersOf t) (colmapOf t) cc tot (filteredRows t p sd ed) k)
      exact ⟨this.1, by rw [this.2, hk2]⟩

/-- Witness for C1 (amended), specialized to the first supplier's entry
of `w1Table` (partner_name detected). -/
theorem c1_amended_witness :
    ∃ k, k ∈ groupKeysOf (normHeadersOf w1Table) (colmapOf w1Table) "cardcode"
        (filteredRows w1Table w1Query none none) ∧
      pyLookup "TotalAmount" w1Entry
        = some (Cell.num (groupSumOf (normHeadersOf w1Table) (colmapOf w1Table)
            "cardcode" "doctotal" (filteredRows w1Table w1Query none none) k)) ∧
      ((colmapOf w1Table).cardname = none →
        pyLookup "CardCode" w1Entry = none ∧ pyLookup "CardName" w1Entry = some k.1) ∧
      (∀ cn, (colmapOf w1Table).cardname = some cn →
        pyLookup "CardCode" w1Entry = some k.1 ∧ pyLookup "CardName" w1Entry = k.2) :=
  c1_amended_thm w1Table w1Query _ "cardcode" "doctotal" none none
    rfl rfl rfl rfl rfl (by decide)
    (by
      intro cn h
      injection h with h
      subst h
      exact ⟨by decide, by decide⟩)
    (by decide)
    w1Entry
    (by
      show w1Entry ∈ supplierTotals (normHeadersOf w1Table) (colmapOf w1Table)
        (filteredRows w1Table w1Query none none)
      rw [supplierTotals_eq (normHeadersOf w1Table) (colmapOf w1Table)
        (filteredRows w1Table w1Query none none) "cardcode" "doctotal" rfl rfl (by decide)]
      exact List.mem_map_of_mem _ (by decide))

lemma condFilter_sub (p : Option (Row → Bool)) (l : List Row) :
    List.Sublist (condFilter p l) l := by
  cases p with
  | none => exact List.Sublist.refl l
  | some f => exact List.filter_sublist l

lemma condFilter_mono (p : Option (Row → Bool)) {l l' : List Row} (h : List.Sublist l' l) :
    List.Sublist (condFilter p l') (condFilter p l) := by
  cases p with
  | none => exact h
  | some f => exact h.filter f

/-- C8: filtering is conjunctive and monotonic — supplying one additional
bound (cardcode substring, min or max total, start or end date) on top of
any criteria never increases `total_records`. -/
theorem c8_monotonic (t : Table) (p p' : ExcelQuery) (r r' : AnalyzeResult)
    (hone : oneMoreBound p p')
    (hok' : analyze_excel t p' = .ok r') (hok : analyze_excel t p = .ok r) :
    r'.total_records ≤ r.total_records := by
  rcases analyze_ok_cases hok with ⟨hc, rfl⟩ | ⟨hc, sd, ed, hsd, hed, rfl⟩
  · rcases analyze_ok_cases hok' with ⟨hc', rfl⟩ | ⟨hc', sd', ed', hsd', hed', rfl⟩
    · exact le_refl 0
    · rw [hc] at hc'
      cases hc'
  · rcases analyze_ok_cases hok' with ⟨hc', rfl⟩ | ⟨hc', sd', ed', hsd', hed', rfl⟩
    · rw [hc] at hc'
      cases hc'
    · show (filteredRows t p' sd' ed').length ≤ (filteredRows t p sd ed).length
      rcases hone with ⟨v, hnone, rfl⟩ | ⟨v, hnone, rfl⟩ | ⟨v, hnone, rfl⟩ |
        ⟨v, hnone, rfl⟩ | ⟨v, hnone, rfl⟩
      · dsimp only at hsd' hed'
        rw [hsd] at hsd'
        injection hsd' with h1
        rw [hed] at hed'
        injection hed' with h2
        subst h1
        subst h2
        refine List.Sublist.length_le ?_
        unfold filteredRows
        dsimp only
        refine condFilter_mono _ (condFilter_mono _ (condFilter_mono _ (condFilter_mono _ ?_)))
        rw [hnone]
        exact condFilter_sub _ _
      · dsimp only at hsd' hed'
        rw [hsd] at hsd'
        injection hsd' with h1
        rw [hed] at hed'
        injection hed' with h2
        subst h1
        subst h2
        refine List.Sublist.length_le ?_
        unfold filteredRows
        dsimp only
        refine condFilter_mono _ (condFilter_mono _ (condFilter_mono _ ?_))
        rw [hnone]
        exact condFilter_sub _ _
      · dsimp only at hsd' hed'
        rw [hsd] at hsd'
        injection hsd' with h1
        rw [hed] at hed'
        injection hed' with h2
        subst h1
        subst h2
        refine List.Sublist.length_le ?_
        unfold filteredRows
        dsimp only
        refine condFilter_mono _ (condFilter_mono _ ?_)
        rw [hnone]
        exact condFilter_sub _ _
      · dsimp only at hsd' hed'
        rw [hed] at hed'
        injection hed' with h2
        subst h2
        rw [hnone] at hsd
        injection hsd with h1
        subst h1
        refine List.Sublist.length_le ?_
        unfold filteredRows
        dsimp only
        refine condFilter_mono _ ?_
        exact condFilter_sub _ _
      · dsimp only at hsd' hed'
        rw [hsd] at hsd'
        injection hsd' with h1
        subst h1
        rw [hnone] at hed
        injection hed with h2
        subst h2
        refine List.Sublist.length_le ?_
        unfold filteredRows
        dsimp only
        exact condFilter_sub _ _

/-- Witness for C8: adding a cardcode bound (`"zzz"`, matching nothing) to
an unfiltered query drops `total_records` from 1 to 0. -/
theorem c8_monotonic_witness :
    (buildResult ⟨["vendor", "amount"], [[Cell.str "Alpha", Cell.num 5]]⟩
        ⟨some "zzz", none, none, none, none⟩ none none).total_records
      ≤ (buildResult ⟨["vendor", "amount"], [[Cell.str "Alpha", Cell.num 5]]⟩
        ⟨none, none, none, none, none⟩ none none).total_records :=
  c8_monotonic ⟨["vendor", "amount"], [[Cell.str "Alpha", Cell.num 5]]⟩
    ⟨none, none, none, none, none⟩ ⟨some "zzz", none, none, none, none⟩ _ _
    (Or.inl ⟨"zzz", rfl, rfl⟩) rfl rfl

lemma mem_pyInsert {β : Type} {q : String × β} {k : String} {v : β}
    {d : List (String × β)} (h : q ∈ pyInsert k v d) : q.1 = k ∨ q ∈ d := by
  induction d with
  | nil =>
      simp [pyInsert] at h
      left
      rw [h]
  | cons a d ih =>
      obtain ⟨k', v'⟩ := a
      by_cases he : k' = k
      · simp [pyInsert, he] at h
        rcases h with h | h
        · left
          rw [h]
        · right
          simp [h]
      · simp [pyInsert, he] at h
        rcases h with h | h
        · right
          simp [h]
        · rcases ih h with h1 | h1
          · left
            exact h1
          · right
            simp [h1]

lemma foldl_pyInsert_keys (cols : List String) (hs : List String) (r : Row)
    (d : Record) {kv : String × Cell}
    (h : kv ∈ cols.foldl (fun d c => pyInsert c (cellAt hs r c) d) d) :
    kv.1 ∈ cols ∨ kv ∈ d := by
  induction cols generalizing d with
  | nil => exact Or.inr h
  | cons c cs ih =>
      rcases ih (pyInsert c (cellAt hs r c) d) h with h1 | h1
      · left
        simp [h1]
      · rcases mem_pyInsert h1 with h2 | h2
        · left
          simp [h2]
        · right
          exact h2

lemma mem_projRow_key {hs cols : List String} {r : Row} {kv : String × Cell}
    (h : kv ∈ projRow hs cols r) : kv.1 ∈ cols := by
  rcases foldl_pyInsert_keys cols hs r [] h with h1 | h1
  · exact h1
  · cases h1

lemma findCol_nil (keys : List String) : findCol [] keys = none := by
  induction keys with
  | nil => rfl
  | cons k ks ih => simp [findCol, ih]

lemma previewColsOf_nil : previewColsOf (detect_columns []) = [] := by
  simp [previewColsOf, detect_columns, findCol_nil, firstUserField]

/-- C9 (amended): for every non-empty table, `sample_records` has at most
10 records; when at least one of the five preview fields (partner_code,
partner_name, doc_number, total_amount, date) is detected, the records are
exactly the first (up to) 10 filtered rows in order, projected onto the
mapped preview columns; when none of the five is detected, the list is
empty (the source's `if preview_cols else []`); and no key outside the
mapped preview columns ever appears in a record. -/
theorem c9_amended_thm (t : Table) (p : ExcelQuery) (r : AnalyzeResult)
    (sd ed : Option Nat)
    (hrows : t.rows ≠ [])
    (hok : analyze_excel t p = .ok r)
    (hsd : parse_datesafe p.start_date = .ok sd)
    (hed : parse_datesafe p.end_date = .ok ed) :
    r.sample_records.length ≤ 10 ∧
    (previewColsOf (colmapOf t) ≠ [] →
      r.sample_records
        = ((filteredRows t p sd ed).take 10).map
            (projRow (normHeadersOf t) (previewColsOf (colmapOf t)))) ∧
    (previewColsOf (colmapOf t) = [] → r.sample_records = []) ∧
    ∀ rec ∈ r.sample_records, ∀ kv ∈ rec, kv.1 ∈ previewColsOf (colmapOf t) := by
  rcases analyze_ok_cases hok with ⟨hc, rfl⟩ | ⟨hc, sd0, ed0, hsd0, hed0, rfl⟩
  · have hre : t.rows.isEmpty = false := by
      cases hr : t.rows with
      | nil => exact absurd hr hrows
      | cons a l => rfl
    have hhe : t.headers.isEmpty = true := by
      rw [hre] at hc
      simpa using hc
    have hh : t.headers = [] := by
      cases hhh : t.headers with
      | nil => rfl
      | cons a l => rw [hhh] at hhe; cases hhe
    have hcm : previewColsOf (colmapOf t) = [] := by
      unfold colmapOf normHeadersOf
      rw [hh]
      exact previewColsOf_nil
    refine ⟨by simp [emptyResult], ?_, fun _ => rfl, ?_⟩
    · intro hne
      exact absurd hcm hne
    · intro rec hrec
      simp [emptyResult] at hrec
  · rw [hsd] at hsd0
    injection hsd0 with h1
    rw [hed] at hed0
    injection hed0 with h2
    subst h1
    subst h2
    refine ⟨?_, ?_, ?_, ?_⟩
    · show (sampleRecords (normHeadersOf t) (colmapOf t) (filteredRows t p sd ed)).length ≤ 10
      unfold sampleRecords
      by_cases hpc : (previewColsOf (colmapOf t)).isEmpty
      · rw [if_pos hpc]
        simp
      · rw [if_neg hpc]
        rw [List.length_map, List.length_take]
        exact min_le_left _ _
    · intro hne
      show sampleRecords (normHeadersOf t) (colmapOf t) (filteredRows t p sd ed) = _
      unfold sampleRecords
      rw [if_neg (fun h => hne (List.isEmpty_iff.mp h))]
    · intro h0
      show sampleRecords (normHeadersOf t) (colmapOf t) (filteredRows t p sd ed) = []
      unfold sampleRecords
      rw [if_pos (by rw [h0]; rfl)]
    · intro rec hrec kv hkv
      show kv.1 ∈ previewColsOf (colmapOf t)
      have hrec' : rec ∈ sampleRecords (normHeadersOf t) (colmapOf t)
          (filteredRows t p sd ed) := hrec
      unfold sampleRecords at hrec'
      by_cases hpc : (previewColsOf (colmapOf t)).isEmpty
      · rw [if_pos hpc] at hrec'
        cases hrec'
      · rw [if_neg hpc] at hrec'
        obtain ⟨r0, -, rfl⟩ := List.mem_map.mp hrec'
        exact mem_projRow_key hkv

/-- Witness for C9 (amended): a one-row table with two preview fields
detected. -/
theorem c9_amended_witness :
    (buildResult ⟨["vendor", "amount"], [[Cell.str "A", Cell.num 3]]⟩
        ⟨none, none, none, none, none⟩ none none).sample_records.length ≤ 10 ∧
    (previewColsOf (colmapOf ⟨["vendor", "amount"], [[Cell.str "A", Cell.num 3]]⟩) ≠ [] →
      (buildResult ⟨["vendor", "amount"], [[Cell.str "A", Cell.num 3]]⟩
          ⟨none, none, none, none, none⟩ none none).sample_records
        = ((filteredRows ⟨["vendor", "amount"], [[Cell.str "A", Cell.num 3]]⟩
            ⟨none, none, none, none, none⟩ none none).take 10).map
            (projRow (normHeadersOf ⟨["vendor", "amount"], [[Cell.str "A", Cell.num 3]]⟩)
              (previewColsOf (colmapOf ⟨["vendor", "amount"],
                [[Cell.str "A", Cell.num 3]]⟩)))) ∧
    (previewColsOf (colmapOf ⟨["vendor", "amount"], [[Cell.str "A", Cell.num 3]]⟩) = [] →
      (buildResult ⟨["vendor", "amount"], [[Cell.str "A", Cell.num 3]]⟩
          ⟨none, none, none, none, none⟩ none none).sample_records = []) ∧
    ∀ rec ∈ (buildResult ⟨["vendor", "amount"], [[Cell.str "A", Cell.num 3]]⟩
        ⟨none, none, none, none, none⟩ none none).sample_records,
      ∀ kv ∈ rec, kv.1 ∈ previewColsOf (colmapOf ⟨["vendor", "amount"],
        [[Cell.str "A", Cell.num 3]]⟩) :=
  c9_amended_thm ⟨["vendor", "amount"], [[Cell.str "A", Cell.num 3]]⟩
    ⟨none, none, none, none, none⟩ _ none none (by simp) rfl rfl rfl
